import Mathlib

/-!
Verification development for the toy-fitting orchestration script
`src/analysis/toys/fit_toys.py`.

The Python source is shallowly embedded: pandas data frames become lists of
rows, a row being an association list from column name to a cell value;
external capabilities (scipy Poisson sampling, pandas row choice, the RooFit
fit strategies, physics factories, path resolution) become explicit oracle
parameters; exceptions become `Except` / an error component of the result.
All definitions are executable.
-/

set_option synthInstance.maxSize 512

namespace FitToys

/-- A cell value of a data frame: integers, strings, or a missing value
(pandas NaN). Generator-truth values and yields are modelled as integers. -/
inductive Val
  | int : Int → Val
  | str : String → Val
  | null : Val
deriving DecidableEq, Repr

/-- One row of a data frame: an association list column name to value. -/
abbrev Row := List (String × Val)

/-- The values stored in a row (used to state that some value occurs nowhere
in a row). -/
def rowValues (r : Row) : List Val := r.map Prod.snd

/-- The Python exception classes distinguished by `main` in
`fit_toys.py` (lines 401-421): `KeyError`, `OSError`, `ValueError`,
`RuntimeError`, and a catch-all for everything else. -/
inductive PyExc
  | keyError
  | osError
  | valueError
  | runtimeError
  | other
deriving DecidableEq, Repr, Fintype

/-- Embedding of the `try/except` ladder of `main` (fit_toys.py lines
401-421): `none` is a run that returned normally, `some e` a run that
raised an exception of class `e`; the result is the process exit status
passed to `parser.exit`. -/
def mainExitStatus : Option PyExc → Nat
  | none => 0
  | some .keyError => 1
  | some .osError => 2
  | some .valueError => 3
  | some .runtimeError => 4
  | some .other => 128

/-- One entry of the `data` section of the configuration: the toy source
reference, the nominal event count, and the (unused by this script)
category label. -/
structure DataSource where
  source : String
  nevents : Nat
  category : Option String
deriving DecidableEq, Repr

/-- The resolved run configuration, after `load_config` validation: trial
count `fit/nfits`, output `name`, the `data` mapping (in configuration
order), and the model and strategy name lists (`fit/models`,
`fit/strategies`, already defaulted). -/
structure RunConfig where
  nfits : Nat
  name : String
  data : List (String × DataSource)
  models : List String
  strategies : List String
deriving DecidableEq, Repr

/-- One pre-generated toy input as read from its HDF store: the row pool
available for subsampling, and the first row of its `toy_info` table
(column name to recorded value). -/
structure ToyData where
  rows : List Row
  toy_info : List (String × Val)
deriving DecidableEq, Repr

/-- A source prepared for sampling: configuration name, nominal event
count and the loaded row pool. -/
structure SampleSource where
  name : String
  nevents : Nat
  pool : List Row
deriving DecidableEq, Repr

/-- The outcome of one fit-strategy invocation: the fitted parameter
values (as extracted by `fit_parameters_to_dict`) and the fit status. -/
structure FitOutcome where
  params : Row
  status : Int
deriving DecidableEq, Repr

/-- One row of the `gen_info` bookkeeping table (fit_toys.py lines
353-359): source name, resolved toy path, nominal event count. -/
structure GenInfoRow where
  name : String
  source : String
  nevents : Nat
deriving DecidableEq, Repr

/-- The output HDF store, restricted to the two tables this script
touches: the append-only `fit_results` table (as a flat list of rows) and
the optional `gen_info` table. -/
structure HDFStore where
  fit_results : List Row
  gen_info : Option (List GenInfoRow)
deriving DecidableEq, Repr

/-- The randomness consumed by one run, as oracle streams: `poisson i m`
is the value of the `i`-th call to `scipy.stats.poisson.rvs` when invoked
with mean `m` (distinct indices model independent draws), and `choice j`
drives the `j`-th elementary row pick of `pandas.DataFrame.sample`. -/
structure Rng where
  poisson : Nat → Nat → Nat
  choice : Nat → Nat

/-- Draw `n` rows without replacement from `pool`: each step picks one
remaining row (position driven by the `choice` stream) and removes it from
the pool. Returns the drawn rows and the advanced choice counter. This is
the semantics of `pandas.DataFrame.sample(n)` (replace=False). -/
def drawWR (rng : Rng) : Nat → List Row → Nat → List Row × Nat
  | cctr, _, 0 => ([], cctr)
  | cctr, pool, Nat.succ n =>
    let i := rng.choice cctr % pool.length
    let rec_call := drawWR rng (cctr + 1) (pool.eraseIdx i) n
    (pool.getD i [] :: rec_call.1, rec_call.2)

/-- Embedding of `pandas.DataFrame.sample(n)` with the default
`replace=False`: raises
`ValueError` when asked for more rows than the population holds, otherwise
draws `n` rows without replacement. -/
def sampleDF (rng : Rng) (cctr : Nat) (pool : List Row) (n : Nat) :
    Except PyExc (List Row × Nat) :=
  if pool.length < n then .error .valueError
  else .ok (drawWR rng cctr pool n)

/-- One source of `get_datasets` (fit_toys.py lines 120-124): draw the
realized sample size from a Poisson with mean `nevents`, then subsample
that many rows. Returns size, rows and advanced counters. -/
def sampleSource (rng : Rng) (pctr cctr : Nat) (s : SampleSource) :
    Except PyExc (Nat × List Row × Nat × Nat) := do
  let size := rng.poisson pctr s.nevents
  let (rows, cctr2) ← sampleDF rng cctr s.pool size
  .ok (size, rows, pctr + 1, cctr2)

/-- The source loop of `get_datasets` (fit_toys.py lines 118-129): sample
every source in configuration order and concatenate the drawn rows into
one merged data set, recording each realized sample size. -/
def mergeSampled (rng : Rng) : Nat → Nat → List SampleSource →
    Except PyExc (List Row × List (String × Nat) × Nat × Nat)
  | pctr, cctr, [] => .ok ([], [], pctr, cctr)
  | pctr, cctr, s :: rest => do
    let (size, rows, pctr2, cctr2) ← sampleSource rng pctr cctr s
    let (rows2, sizes2, pctr3, cctr3) ← mergeSampled rng pctr2 cctr2 rest
    .ok (rows ++ rows2, (s.name, size) :: sizes2, pctr3, cctr3)

/-- Embedding of `get_datasets` (fit_toys.py lines 100-134): build the merged sampled
data set, then hand one transformed copy per model to the caller, keyed by
the model name, together with the realized sample sizes. -/
def get_datasets (rng : Rng) (pctr cctr : Nat) (sources : List SampleSource)
    (transformers : List (String × (List Row → List Row))) :
    Except PyExc (List (String × List Row) × List (String × Nat) × Nat × Nat) := do
  let (merged, sizes, p2, c2) ← mergeSampled rng pctr cctr sources
  .ok (transformers.map (fun nt => (nt.1, nt.2 merged)), sizes, p2, c2)

/-- The inner strategy loop of one trial (fit_toys.py lines 303-310): for
each fit strategy in order, invoke it on the model data set (the oracle
`fitOracle t m s ds` is the external strategy call for trial `t`, model
`m`, strategy `s`), and record the fitted parameters together with the fit
status under the key `(model, strategy)`. -/
def fitModelStrategies (fitOracle : Nat → String → String → List Row → Except PyExc FitOutcome)
    (t : Nat) (m : String) (ds : List Row) :
    List String → Except PyExc (List ((String × String) × Row))
  | [] => .ok []
  | s :: rest => do
    let outcome ← fitOracle t m s ds
    let row := outcome.params ++ [("fit_status", Val.int outcome.status)]
    let tail ← fitModelStrategies fitOracle t m ds rest
    .ok (((m, s), row) :: tail)

/-- The model loop of one trial (fit_toys.py lines 299-311): for each
model in order, pop its data set and run every strategy on it. -/
def fitTrial (fitOracle : Nat → String → String → List Row → Except PyExc FitOutcome)
    (t : Nat) (datasets : List (String × List Row)) (strategies : List String) :
    List String → Except PyExc (List ((String × String) × Row))
  | [] => .ok []
  | m :: rest => do
    let ds := ((datasets.find? (fun e => e.1 = m)).map Prod.snd).getD []
    let head ← fitModelStrategies fitOracle t m ds strategies
    let tail ← fitTrial fitOracle t datasets strategies rest
    .ok (head ++ tail)

/-- The sampling-fit loop (fit_toys.py lines 281-313), recursing on the
number of remaining trials: each trial samples a fresh compound data set,
records the realized sample sizes, and fits every (model, strategy) pair.
Returns per-trial fit records, per-trial sample-size records, and the
final randomness counters. A failure anywhere aborts the whole loop. -/
def trialLoopAux (rng : Rng) (sources : List SampleSource)
    (transformers : List (String × (List Row → List Row)))
    (fitOracle : Nat → String → String → List Row → Except PyExc FitOutcome)
    (models strategies : List String) :
    Nat → Nat → Nat → Nat →
    Except PyExc (List (List ((String × String) × Row)) × List (List (String × Nat)) × Nat × Nat)
  | _, 0, pctr, cctr => .ok ([], [], pctr, cctr)
  | t, Nat.succ k, pctr, cctr => do
    let (datasets, sizes, p2, c2) ← get_datasets rng pctr cctr sources transformers
    let results ← fitTrial fitOracle t datasets strategies models
    let (restRes, restGen, p3, c3) ←
      trialLoopAux rng sources transformers fitOracle models strategies (t + 1) k p2 c2
    .ok (results :: restRes, sizes :: restGen, p3, c3)

/-- The full trial loop, started at trial 0 with fresh randomness
counters (fit_toys.py line 281: `for fit_num in range(nfits)`). -/
def trialLoop (rng : Rng) (sources : List SampleSource)
    (transformers : List (String × (List Row → List Row)))
    (fitOracle : Nat → String → String → List Row → Except PyExc FitOutcome)
    (models strategies : List String) (nfits : Nat) :
    Except PyExc (List (List ((String × String) × Row)) × List (List (String × Nat)) × Nat × Nat) :=
  trialLoopAux rng sources transformers fitOracle models strategies 0 nfits 0 0

/-- Column name `N^\x7bname\x7d_\x7bgen\x7d` used for the per-trial
generated sample size of a source (fit_toys.py line 294). -/
def genKey (name : String) : String := "N^\x7b" ++ name ++ "\x7d_\x7bgen\x7d"

/-- Column name `N^\x7bname\x7d_\x7bnominal\x7d` for the nominal yield of
a source (fit_toys.py line 320). -/
def nominalKey (name : String) : String := "N^\x7b" ++ name ++ "\x7d_\x7bnominal\x7d"

/-- Key of a generator-truth value: `var^\x7bsource\x7d` (fit_toys.py
line 220). -/
def truthKey (var src : String) : String := var ++ "^\x7b" ++ src ++ "\x7d"

/-- Suffix `_\x7bgen\x7d` appended to truth keys when building the output
frame (fit_toys.py line 319). -/
def genSuffix (k : String) : String := k ++ "_\x7bgen\x7d"

/-- Generator values contributed by one source (fit_toys.py lines
217-220): every `toy_info` column except `seed`, `jobid` and `nevents`,
keyed as `var^\x7bsource\x7d`. -/
def sourceGenValues (srcName : String) (info : List (String × Val)) :
    List (String × Val) :=
  (info.filter (fun kv => !(kv.1 == "seed" || kv.1 == "jobid" || kv.1 == "nevents"))).map
    (fun kv => (truthKey kv.1 srcName, kv.2))

/-- The `(model, strategy)` keys in loop order: models outermost,
strategies innermost. -/
def modelStrategyKeys (models strategies : List String) : List (String × String) :=
  models.flatMap (fun m => strategies.map (fun s => (m, s)))

/-- First-match association lookup on the per-trial fit records. -/
def lookupPair (k : String × String) : List ((String × String) × Row) → Option Row
  | [] => none
  | e :: rest => if e.1 = k then some e.2 else lookupPair k rest

/-- The flat result rows `data_res` (fit_toys.py lines 317-329): for each
`(model, strategy)` key, every trial result in trial order, each row
extended with its `model_name` and `fit_strategy` columns. -/
def dataRes (models strategies : List String)
    (perTrial : List (List ((String × String) × Row))) : List Row :=
  (modelStrategyKeys models strategies).flatMap fun key =>
    (perTrial.filterMap (fun tr => lookupPair key tr)).map
      (fun r => r ++ [("model_name", Val.str key.1), ("fit_strategy", Val.str key.2)])

/-- The column set of a frame: union of the row keys in order of first
appearance (what `pandas.DataFrame` exposes as `columns`). -/
def frameColumns (f : List Row) : List String :=
  ((f.map (fun r => r.map Prod.fst)).flatten).dedup

/-- The padding row used by `pandas.concat(axis=1)` for rows a shorter
frame does not have: every one of its columns set to NaN. -/
def padRow (f : List Row) : Row :=
  (frameColumns f).map (fun c => (c, Val.null))

/-- Embedding of `pandas.concat([a, b], axis=1)`: rows are joined positionally; the
shorter frame contributes NaN in all of its columns beyond its length. -/
def concatCols (a b : List Row) : List Row :=
  (List.range (max a.length b.length)).map fun i =>
    a.getD i (padRow a) ++ b.getD i (padRow b)

/-- Modelled from the spec: `analysis.utils.data.calculate_pulls` is not
under `src/`; following the spec (sections 4.5 and 8), the pull of a
fitted parameter is (fitted value minus generator truth) for matching
parameter names, and a parameter with no matching truth value gets no
pull column. -/
def calculate_pulls (dataF genF : List Row) : List Row :=
  (List.range dataF.length).map fun i =>
    (dataF.getD i []).filterMap (fun kv =>
      match kv.2, (genF.getD i []).lookup (genSuffix kv.1) with
      | Val.int x, some (Val.int g) => some (kv.1 ++ "_pull", Val.int (x - g))
      | _, _ => none)

/-- The result-frame assembly (fit_toys.py lines 316-344): the replicated
generator-truth and nominal-yield columns, joined column-wise with the
per-trial generated-size frame, the flat fit-result rows, and the pull
columns. -/
def buildFrame (cfg : RunConfig) (genValues : List (String × Val))
    (perTrial : List (List ((String × String) × Row)))
    (genEvents : List (List (String × Nat))) : List Row :=
  let dataGen : Row := genValues.map (fun kv => (genSuffix kv.1, kv.2))
  let nominal : Row := cfg.data.map (fun nd => (nominalKey nd.1, Val.int (nd.2.nevents : Int)))
  let dRes := dataRes cfg.models cfg.strategies perTrial
  let genEventsFrame : List Row :=
    genEvents.map (fun sizes => sizes.map (fun ns => (genKey ns.1, Val.int (ns.2 : Int))))
  let genFrame := concatCols (List.replicate dRes.length (dataGen ++ nominal)) genEventsFrame
  concatCols (concatCols genFrame dRes) (calculate_pulls dRes genFrame)

/-- The data-loading loop (fit_toys.py lines 202-220): resolve each
configured source (raising `OSError` when the toy file is absent), keep
its row pool for sampling, and collect its generator-truth values. The
oracle `toys` maps a source reference to its stored toy data. -/
def loadSourcesAux (toys : String → Option ToyData) :
    List (String × DataSource) →
    Except PyExc (List SampleSource × List (String × Val))
  | [] => .ok ([], [])
  | (name, ds) :: rest =>
    match toys ds.source with
    | none => .error .osError
    | some toy => do
      let (srcs, gvs) ← loadSourcesAux toys rest
      .ok ({ name := name, nevents := ds.nevents, pool := toy.rows } :: srcs,
           sourceGenValues name toy.toy_info ++ gvs)

/-- Load every source of the configuration. -/
def loadSources (cfg : RunConfig) (toys : String → Option ToyData) :
    Except PyExc (List SampleSource × List (String × Val)) :=
  loadSourcesAux toys cfg.data

/-- The `gen_info` rows staged for a fresh output (fit_toys.py lines
354-359): one per source, with the resolved toy path. The oracle
`getToyPath` is `analysis.utils.paths.get_toy_path`. -/
def genInfoRows (cfg : RunConfig) (getToyPath : String → String) : List GenInfoRow :=
  cfg.data.map fun nd =>
    { name := nd.1, source := getToyPath nd.2.source, nevents := nd.2.nevents }

/-- The single persistence step (fit_toys.py lines 345-359): append the
result frame to `fit_results`, and write `gen_info` only when the store
does not already carry it; a pre-existing `gen_info` is left untouched. -/
def saveResults (store : HDFStore) (frame : List Row) (gi : List GenInfoRow) : HDFStore :=
  { fit_results := store.fit_results ++ frame
    gen_info :=
      match store.gen_info with
      | some g => some g
      | none => some gi }

/-- Everything `run` does before touching the output store (fit_toys.py
lines 171-344): validate that models and strategies are configured
(`KeyError` otherwise), load the sources, run the trial loop, and build
the aggregate result frame. The output store is not an input: no
comparison against previously persisted data happens anywhere. -/
def runCore (cfg : RunConfig) (toys : String → Option ToyData)
    (transforms : String → List Row → List Row)
    (fitOracle : Nat → String → String → List Row → Except PyExc FitOutcome)
    (rng : Rng) : Except PyExc (List Row) :=
  if cfg.models = [] then .error .keyError
  else if cfg.strategies = [] then .error .keyError
  else do
    let (sources, genValues) ← loadSources cfg toys
    let (perTrial, genEvents, _, _) ←
      trialLoop rng sources (cfg.models.map fun m => (m, transforms m))
        fitOracle cfg.models cfg.strategies cfg.nfits
    .ok (buildFrame cfg genValues perTrial genEvents)

/-- The whole of `run` (fit_toys.py lines 137-368) as a state transformer
on the output store: on any exception the store is returned untouched; on
success the one write of `saveResults` happens. `envJobId` models the
numeric head of `PBS_JOBID` and `randSeed` the fallback random seed
(lines 268-275); both are consumed only by `ROOT.RooRandom.SetSeed`
(external) and reach no output row. -/
def runModel (cfg : RunConfig) (toys : String → Option ToyData)
    (transforms : String → List Row → List Row)
    (fitOracle : Nat → String → String → List Row → Except PyExc FitOutcome)
    (rng : Rng) (getToyPath : String → String)
    (_envJobId : Option Nat) (_randSeed : Nat)
    (store : HDFStore) : Option PyExc × HDFStore :=
  match runCore cfg toys transforms fitOracle rng with
  | .error e => (some e, store)
  | .ok frame => (none, saveResults store frame (genInfoRows cfg getToyPath))

/-- A physics factory as far as `load_pdfs` observes it: the names of its
observables and of its fit parameters (external PDF machinery is opaque). -/
structure PhysicsFactory where
  observables : List String
  fitParams : List String
deriving DecidableEq, Repr

/-- The configuration of one PDF inside a model element: its
`parameter-constraints` mapping (parameter name to raw constraint
configuration). -/
structure PdfConfig where
  paramConstraints : List (String × String)
deriving DecidableEq, Repr

/-- One named element of a model configuration: its `pdfs` mapping
(observable name to PDF configuration). -/
structure ModelElement where
  pdfs : List (String × PdfConfig)
deriving DecidableEq, Repr

/-- The parameter-constraint loop over one PDF configuration
(fit_toys.py lines 80-96): each named parameter must exist among the
factory fit parameters (`KeyError` otherwise), is then configured by the
external `configure_parameter` (whose `KeyError`/`ValueError` propagate),
and a returned constraint is accumulated. -/
def configurePdf (configureParameter : String → String → Except PyExc (Option String))
    (factory : PhysicsFactory) :
    List (String × String) → Except PyExc (List String)
  | [] => .ok []
  | pc :: rest =>
    if pc.1 ∈ factory.fitParams then
      match configureParameter pc.1 pc.2 with
      | .error e => .error e
      | .ok c => do
        let cs ← configurePdf configureParameter factory rest
        .ok (c.toList ++ cs)
    else .error .keyError

/-- The per-element PDF loop (fit_toys.py lines 74-96), iterating the
element PDF configurations in order and accumulating constraints. -/
def configureElement (configureParameter : String → String → Except PyExc (Option String))
    (factory : PhysicsFactory) :
    List (String × PdfConfig) → Except PyExc (List String)
  | [] => .ok []
  | p :: rest => do
    let a ← configurePdf configureParameter factory p.2.paramConstraints
    let b ← configureElement configureParameter factory rest
    .ok (a ++ b)

/-- The element loop of `load_pdfs` (fit_toys.py lines 55-96), carrying
the observable set of the first element: a failed factory lookup raises
`ValueError`; an element whose observable set differs from the first
raises `KeyError`; otherwise the factory is recorded under the element
name and the parameter constraints are configured. -/
def load_pdfsAux (getFactory : List (String × PdfConfig) → Except Unit PhysicsFactory)
    (configureParameter : String → String → Except PyExc (Option String))
    (modelObs : Option (Finset String)) :
    List (String × ModelElement) →
    Except PyExc (List (String × PhysicsFactory) × List String)
  | [] => .ok ([], [])
  | (name, elem) :: rest =>
    match getFactory elem.pdfs with
    | .error _ => .error .valueError
    | .ok factory =>
      let obs := factory.observables.toFinset
      match modelObs with
      | none => do
        let cs ← configureElement configureParameter factory elem.pdfs
        let (fs, cs2) ← load_pdfsAux getFactory configureParameter (some obs) rest
        .ok ((name, factory) :: fs, cs ++ cs2)
      | some mo =>
        if mo ≠ obs then .error .keyError
        else do
          let cs ← configureElement configureParameter factory elem.pdfs
          let (fs, cs2) ← load_pdfsAux getFactory configureParameter (some mo) rest
          .ok ((name, factory) :: fs, cs ++ cs2)

/-- Embedding of `load_pdfs` (fit_toys.py lines 33-97): load one physics factory per
model element, enforcing that all elements share one observable set, and
accumulate the external constraints. -/
def load_pdfs (getFactory : List (String × PdfConfig) → Except Unit PhysicsFactory)
    (configureParameter : String → String → Except PyExc (Option String))
    (model : List (String × ModelElement)) :
    Except PyExc (List (String × PhysicsFactory) × List String) :=
  load_pdfsAux getFactory configureParameter none model

/-- The constraints one element contributes when every
`configure_parameter` call succeeds (used to state what `load_pdfs`
accumulates). -/
def okConstraints (configureParameter : String → String → Except PyExc (Option String))
    (pdfs : List (String × PdfConfig)) : List String :=
  pdfs.flatMap fun p =>
    p.2.paramConstraints.flatMap fun pc =>
      match configureParameter pc.1 pc.2 with
      | .ok (some c) => [c]
      | _ => []

/-- Follows the claim words (refinement side of C4): for trial `t`, each
source `i` gets a fresh Poisson draw of mean equal to its configured
nominal event count, at the globally fresh draw index `t * numSources + i`
(distinct indices of the `poisson` stream model independent draws). -/
def specPoissonSizes (rng : Rng) : Nat → List SampleSource → List (String × Nat)
  | _, [] => []
  | pctr, s :: rest => (s.name, rng.poisson pctr s.nevents) :: specPoissonSizes rng (pctr + 1) rest

/-! Concrete fixtures used by witness and counterexample theorems. -/

/-- A deterministic randomness oracle: every Poisson draw realizes 1
event and every row pick takes the first remaining row. -/
def rngW : Rng := { poisson := fun _ _ => 1, choice := fun _ => 0 }

/-- A two-row toy input whose recorded truth is `x = 5` (the `seed`
column is present to exercise the bookkeeping filter). -/
def toyA : ToyData :=
  { rows := [[("x", Val.int 1)], [("x", Val.int 2)]]
    toy_info := [("x", Val.int 5), ("seed", Val.int 7)] }

/-- A toy store holding exactly the toy `toyA`. -/
def toysW : String → Option ToyData := fun p => if p = "toyA" then some toyA else none

/-- The end-to-end scenario configuration: three trials, one source `A`
(declaring a category), one model `M`, one strategy `simple`. -/
def cfgW : RunConfig :=
  { nfits := 3
    name := "test"
    data := [("A", { source := "toyA", nevents := 100, category := some "sig" })]
    models := ["M"]
    strategies := ["simple"] }

/-- A fit oracle that always converges to `x^\x7bM\x7d = 5` with
status 0. -/
def fitOracleW : Nat → String → String → List Row → Except PyExc FitOutcome :=
  fun _ _ _ _ => .ok { params := [("x^\x7bM\x7d", Val.int 5)], status := 0 }

/-- A fit oracle that fails with `RuntimeError` from the second trial
on. -/
def fitFailW : Nat → String → String → List Row → Except PyExc FitOutcome :=
  fun t _ _ _ =>
    if 1 ≤ t then .error .runtimeError
    else .ok { params := [("x^\x7bM\x7d", Val.int 5)], status := 0 }

/-- The identity model transform. -/
def transformsW : String → List Row → List Row := fun _ ds => ds

/-- The identity path resolution. -/
def getToyPathW : String → String := fun s => s

/-- The single sampling source of the scenario configuration, as the
loader produces it. -/
def srcAW : SampleSource := { name := "A", nevents := 100, pool := toyA.rows }

/-- A fresh output store. -/
def store0 : HDFStore := { fit_results := [], gen_info := none }

/-- The toy `toyA` with its recorded generator truth mutated from
`x = 5` to `x = 6`. -/
def toyAMut : ToyData := { rows := toyA.rows, toy_info := [("x", Val.int 6), ("seed", Val.int 7)] }

/-- A toy store identical to `toysW` except that the recorded truth of
the single source was mutated. -/
def toysMutW : String → Option ToyData := fun p => if p = "toyA" then some toyAMut else none

/-- An output store already carrying a `gen_info` record for source `A`
whose nominal event count (50) disagrees with the configuration
of `cfgW` (100). -/
def storeMismatch : HDFStore :=
  { fit_results := []
    gen_info := some [{ name := "A", source := "toyA", nevents := 50 }] }

/-- The fit records of one trial of the concrete scenario. -/
def trialRowW : List ((String × String) × Row) :=
  [(("M", "simple"), [("x^\x7bM\x7d", Val.int 5), ("fit_status", Val.int 0)])]

/-- The per-trial fit records of the three-trial concrete scenario. -/
def perTrialW : List (List ((String × String) × Row)) := [trialRowW, trialRowW, trialRowW]

/-- The per-trial sample-size records of the three-trial concrete
scenario. -/
def genEventsW : List (List (String × Nat)) := [[("A", 1)], [("A", 1)], [("A", 1)]]

/-- A one-observable, one-parameter physics factory. -/
def factoryW : PhysicsFactory := { observables := ["mass"], fitParams := ["mu"] }

/-- A model element with a single PDF and no parameter constraints. -/
def elemW : ModelElement := { pdfs := [("mass", { paramConstraints := [] })] }

/-- A factory lookup that always resolves to `factoryW`. -/
def gfW : List (String × PdfConfig) → Except Unit PhysicsFactory := fun _ => .ok factoryW

/-- A `configure_parameter` oracle that always succeeds without producing
a constraint. -/
def cpW : String → String → Except PyExc (Option String) := fun _ _ => .ok none

/-- The factory assignment of the concrete model. -/
def facW : String × ModelElement → PhysicsFactory := fun _ => factoryW

/-- The one row shape the concrete three-trial scenario produces (three
identical copies): truth column, nominal yield, generated size, fitted
parameter, fit status, model name, strategy name — and nothing else. -/
def rowW : Row :=
  [("x^\x7bA\x7d_\x7bgen\x7d", Val.int 5),
   ("N^\x7bA\x7d_\x7bnominal\x7d", Val.int 100),
   ("N^\x7bA\x7d_\x7bgen\x7d", Val.int 1),
   ("x^\x7bM\x7d", Val.int 5),
   ("fit_status", Val.int 0),
   ("model_name", Val.str "M"),
   ("fit_strategy", Val.str "simple")]

deriving instance DecidableEq for Except

/-- Shape invariant of the fit records of one trial: there is exactly one
record per `(model, strategy)` pair, in loop order, and every record row
ends with its `fit_status` column. -/
def trialShape (models strategies : List String)
    (tr : List ((String × String) × Row)) : Prop :=
  tr.map Prod.fst = modelStrategyKeys models strategies ∧
  ∀ e ∈ tr, ∃ ps st, e.2 = ps ++ [("fit_status", Val.int st)]

/-! ## Theorems -/

/-- C2 (corrected): the command-line entry point exits with 0 on success,
1 on `KeyError` (configuration errors), 2 on `OSError` (missing files),
3 on `ValueError`, 4 on `RuntimeError` (fit-loop errors), and 128 on any
other uncaught error; every outcome maps to one of these six codes — in
particular, no outcome of `main` ever produces the exit status 5 the
claim reserves for a generator-truth inconsistency. -/
theorem C2_exit_status_contract :
    mainExitStatus none = 0 ∧
    mainExitStatus (some PyExc.keyError) = 1 ∧
    mainExitStatus (some PyExc.osError) = 2 ∧
    mainExitStatus (some PyExc.valueError) = 3 ∧
    mainExitStatus (some PyExc.runtimeError) = 4 ∧
    mainExitStatus (some PyExc.other) = 128 ∧
    ∀ o : Option PyExc, mainExitStatus o ∈ [0, 1, 2, 3, 4, 128] := by
  refine ⟨rfl, rfl, rfl, rfl, rfl, rfl, ?_⟩
  intro o
  rcases o with _ | e
  · simp [mainExitStatus]
  · cases e <;> simp [mainExitStatus]

/-- C2 counterexample: the exit statuses of the entry point, over all
possible run outcomes, are exactly 0, 1, 2, 3, 4 and 128; the status 5
claimed for a detected generator-truth inconsistency is not among them. -/
theorem C2_counterexample :
    Finset.univ.image mainExitStatus = ({0, 1, 2, 3, 4, 128} : Finset Nat) ∧
    decide ((5 : Nat) ∈ Finset.univ.image mainExitStatus) = false := by
  decide

/-- C10 (confirmed): a pre-existing `gen_info` table is returned
byte-for-byte unchanged by a run, whatever the configuration; the run only
appends to `fit_results`; and `gen_info` is written exactly when it was
absent (on a successful run). -/
theorem C10_gen_info_write_once
    (cfg : RunConfig) (toys : String → Option ToyData)
    (transforms : String → List Row → List Row)
    (fitOracle : Nat → String → String → List Row → Except PyExc FitOutcome)
    (rng : Rng) (getToyPath : String → String)
    (env : Option Nat) (seed : Nat) (store : HDFStore) :
    (∀ g, store.gen_info = some g →
      ((runModel cfg toys transforms fitOracle rng getToyPath env seed store).2).gen_info = some g) ∧
    (store.gen_info = none →
      (runModel cfg toys transforms fitOracle rng getToyPath env seed store).1 = none →
      ((runModel cfg toys transforms fitOracle rng getToyPath env seed store).2).gen_info
        = some (genInfoRows cfg getToyPath)) ∧
    (∃ tail, ((runModel cfg toys transforms fitOracle rng getToyPath env seed store).2).fit_results
        = store.fit_results ++ tail) := by
  rcases hr : runCore cfg toys transforms fitOracle rng with e | frame
  · refine ⟨?_, ?_, ⟨[], ?_⟩⟩ <;> simp [runModel, hr]
  · refine ⟨?_, ?_, ⟨frame, ?_⟩⟩
    · intro g hg
      simp [runModel, hr, saveResults, hg]
    · intro hg _
      simp [runModel, hr, saveResults, hg]
    · simp [runModel, hr, saveResults]

/-- C10 witness: on the concrete store whose `gen_info` disagrees with
the configuration (nevents 50 against 100), the run leaves the table
exactly as it was. -/
theorem C10_witness :
    ((runModel cfgW toysW transformsW fitOracleW rngW getToyPathW none 0 storeMismatch).2).gen_info
      = some [{ name := "A", source := "toyA", nevents := 50 }] :=
  (C10_gen_info_write_once cfgW toysW transformsW fitOracleW rngW getToyPathW
    none 0 storeMismatch).1 _ rfl

/-- C7 (confirmed): the store is written exactly once, after the whole
trial loop: a run that raises leaves the output store untouched, and a
run that completes produces exactly the single `saveResults` write of the
aggregate frame. -/
theorem C7_single_write_after_loop
    (cfg : RunConfig) (toys : String → Option ToyData)
    (transforms : String → List Row → List Row)
    (fitOracle : Nat → String → String → List Row → Except PyExc FitOutcome)
    (rng : Rng) (getToyPath : String → String)
    (env : Option Nat) (seed : Nat) (store : HDFStore) :
    (∀ e, (runModel cfg toys transforms fitOracle rng getToyPath env seed store).1 = some e →
      (runModel cfg toys transforms fitOracle rng getToyPath env seed store).2 = store) ∧
    ((runModel cfg toys transforms fitOracle rng getToyPath env seed store).1 = none →
      ∃ frame, runCore cfg toys transforms fitOracle rng = .ok frame ∧
        (runModel cfg toys transforms fitOracle rng getToyPath env seed store).2
          = saveResults store frame (genInfoRows cfg getToyPath)) := by
  rcases hr : runCore cfg toys transforms fitOracle rng with e | frame
  · constructor
    · intro e2 _
      simp [runModel, hr]
    · intro hnone
      simp [runModel, hr] at hnone
  · constructor
    · intro e2 habs
      simp [runModel, hr] at habs
    · intro _
      exact ⟨frame, rfl, by simp [runModel, hr]⟩

/-- C7 witness: with a fit oracle that fails from the second trial on,
the run aborts mid-loop and the fresh output store is left without any
rows from the run. -/
theorem C7_witness :
    (runModel cfgW toysW transformsW fitFailW rngW getToyPathW none 0 store0).2 = store0 :=
  (C7_single_write_after_loop cfgW toysW transformsW fitFailW rngW getToyPathW
    none 0 store0).1 PyExc.runtimeError (by decide)

/-- C1 (corrected): the run performs no comparison at all between the
freshly loaded truth values and anything persisted in the output target:
both its error/success status and the rows it appends are independent of
the `gen_info` content already in the store. -/
theorem C1_run_ignores_persisted_truth
    (cfg : RunConfig) (toys : String → Option ToyData)
    (transforms : String → List Row → List Row)
    (fitOracle : Nat → String → String → List Row → Except PyExc FitOutcome)
    (rng : Rng) (getToyPath : String → String)
    (env : Option Nat) (seed : Nat) (fr : List Row)
    (g1 g2 : Option (List GenInfoRow)) :
    (runModel cfg toys transforms fitOracle rng getToyPath env seed
        { fit_results := fr, gen_info := g1 }).1 =
      (runModel cfg toys transforms fitOracle rng getToyPath env seed
        { fit_results := fr, gen_info := g2 }).1 ∧
    ((runModel cfg toys transforms fitOracle rng getToyPath env seed
        { fit_results := fr, gen_info := g1 }).2).fit_results =
      ((runModel cfg toys transforms fitOracle rng getToyPath env seed
        { fit_results := fr, gen_info := g2 }).2).fit_results := by
  rcases hr : runCore cfg toys transforms fitOracle rng with e | frame <;>
    simp [runModel, hr, saveResults]

/-- C1 counterexample: a first run against a fresh store succeeds; after
mutating the recorded truth of the single source (x: 5 to 6), the second,
otherwise identical run against the produced store also succeeds — it
raises no consistency error and silently appends its three new rows. -/
theorem C1_counterexample :
    (runModel cfgW toysW transformsW fitOracleW rngW getToyPathW none 0 store0).1 = none ∧
    (runModel cfgW toysMutW transformsW fitOracleW rngW getToyPathW none 0
      (runModel cfgW toysW transformsW fitOracleW rngW getToyPathW none 0 store0).2).1 = none ∧
    ((runModel cfgW toysMutW transformsW fitOracleW rngW getToyPathW none 0
      (runModel cfgW toysW transformsW fitOracleW rngW getToyPathW none 0 store0).2).2).fit_results.length
      = 6 := by
  decide

/-- Moving the element picked at position `i` to the front of the
remaining pool is a permutation of the pool. -/
theorem getD_cons_eraseIdx_perm (l : List Row) (i : Nat) (h : i < l.length) :
    List.Perm (l.getD i [] :: l.eraseIdx i) l := by
  induction l generalizing i with
  | nil => simp at h
  | cons a t ih =>
    cases i with
    | zero => simp
    | succ j =>
      have hj : j < t.length := by simpa using h
      have hswap : List.Perm (t.getD j [] :: a :: t.eraseIdx j)
          (a :: t.getD j [] :: t.eraseIdx j) := List.Perm.swap a (t.getD j []) _
      simpa using hswap.trans ((ih j hj).cons a)

/-- Rows drawn without replacement form a sub-permutation of the pool:
each pool row is used at most once. -/
theorem drawWR_subperm (rng : Rng) :
    ∀ (n : Nat) (pool : List Row) (cctr : Nat), n ≤ pool.length →
      List.Subperm (drawWR rng cctr pool n).1 pool := by
  intro n
  induction n with
  | zero =>
    intro pool cctr _
    simp [drawWR]
  | succ k ih =>
    intro pool cctr h
    have hpos : 0 < pool.length := Nat.lt_of_lt_of_le (Nat.succ_pos k) h
    have hilt : rng.choice cctr % pool.length < pool.length := Nat.mod_lt _ hpos
    have hlen : k ≤ (pool.eraseIdx (rng.choice cctr % pool.length)).length := by
      rw [List.length_eraseIdx_of_lt hilt]
      omega
    have hrec := ih (pool.eraseIdx (rng.choice cctr % pool.length)) (cctr + 1) hlen
    have hcons := (List.subperm_cons (pool.getD (rng.choice cctr % pool.length) [])).2 hrec
    have hperm := (getD_cons_eraseIdx_perm pool (rng.choice cctr % pool.length) hilt).subperm
    simpa [drawWR] using hcons.trans hperm

/-- A sub-permutation of a duplicate-free list is duplicate-free. -/
theorem subpermNodup {α : Type} {l1 l2 : List α} (h : List.Subperm l1 l2)
    (h2 : l2.Nodup) : l1.Nodup := by
  obtain ⟨l, hp, hs⟩ := h
  exact hp.nodup_iff.mp (hs.nodup h2)

/-- Binding a success just applies the continuation. -/
@[simp] theorem exceptBindOk {ε α β : Type} (a : α) (f : α → Except ε β) :
    (Except.ok a >>= f) = f a := rfl

/-- Binding a failure propagates it. -/
@[simp] theorem exceptBindErr {ε α β : Type} (e : ε) (f : α → Except ε β) :
    ((Except.error e : Except ε α) >>= f) = Except.error e := rfl

/-- Inversion of a successful `sampleSource`: the realized size is the
Poisson draw at the current counter, the Poisson counter advances by one,
the draw fits in the pool, and the rows are the without-replacement
draw. -/
theorem sampleSource_ok {rng : Rng} {pctr cctr : Nat} {s : SampleSource}
    {size : Nat} {rows : List Row} {p2 c2 : Nat}
    (h : sampleSource rng pctr cctr s = .ok (size, rows, p2, c2)) :
    size = rng.poisson pctr s.nevents ∧ p2 = pctr + 1 ∧
    rng.poisson pctr s.nevents ≤ s.pool.length ∧
    rows = (drawWR rng cctr s.pool size).1 := by
  by_cases hlt : s.pool.length < rng.poisson pctr s.nevents
  · simp [sampleSource, sampleDF, hlt] at h
  · simp only [sampleSource, sampleDF, hlt, if_neg, ite_false, exceptBindOk,
      Except.ok.injEq, Prod.mk.injEq] at h
    obtain ⟨h1, h2, h3, -⟩ := h
    subst h1
    subst h2
    subst h3
    exact ⟨rfl, rfl, Nat.le_of_not_lt hlt, rfl⟩

/-- A Poisson draw exceeding the pool makes `sampleSource` raise
`ValueError` (the `pandas.sample` contract). -/
theorem sampleSource_err {rng : Rng} {pctr cctr : Nat} {s : SampleSource}
    (h : s.pool.length < rng.poisson pctr s.nevents) :
    sampleSource rng pctr cctr s = .error .valueError := by
  simp [sampleSource, sampleDF, h]

/-- Inversion of a successful `mergeSampled`: the recorded sizes are the
per-source Poisson draws at consecutive counters, the Poisson counter
advances by the number of sources, and the merged rows split into one
block per source, each block a sub-permutation of its source pool. -/
theorem mergeSampled_ok {rng : Rng} :
    ∀ (srcs : List SampleSource) (pctr cctr : Nat) (rows : List Row)
      (sizes : List (String × Nat)) (p2 c2 : Nat),
      mergeSampled rng pctr cctr srcs = .ok (rows, sizes, p2, c2) →
      sizes = specPoissonSizes rng pctr srcs ∧ p2 = pctr + srcs.length ∧
      ∃ blocks : List (List Row),
        rows = blocks.flatten ∧ blocks.length = srcs.length ∧
        ∀ i (h1 : i < blocks.length) (h2 : i < srcs.length),
          List.Subperm (blocks.get ⟨i, h1⟩) (srcs.get ⟨i, h2⟩).pool := by
  intro srcs
  induction srcs with
  | nil =>
    intro pctr cctr rows sizes p2 c2 h
    simp only [mergeSampled, Except.ok.injEq, Prod.mk.injEq] at h
    obtain ⟨h1, h2, h3, -⟩ := h
    subst h1
    subst h2
    subst h3
    refine ⟨rfl, by simp, [], by simp, rfl, ?_⟩
    intro i h1 h2
    simp at h1
  | cons s rest ih =>
    intro pctr cctr rows sizes p2 c2 h
    rcases hs : sampleSource rng pctr cctr s with e | v
    · rw [mergeSampled, hs] at h
      simp at h
    · obtain ⟨size, rows1, pctr2, cctr2⟩ := v
      rcases hm : mergeSampled rng pctr2 cctr2 rest with e | w
      · rw [mergeSampled, hs] at h
        simp [hm] at h
      · obtain ⟨rows2, sizes2, pctr3, cctr3⟩ := w
        rw [mergeSampled, hs] at h
        simp only [exceptBindOk] at h
        rw [hm] at h
        simp only [exceptBindOk, Except.ok.injEq, Prod.mk.injEq] at h
        obtain ⟨hrows, hsizes, hp, -⟩ := h
        subst hrows
        subst hsizes
        subst hp
        obtain ⟨hsz, hp2, hle, hr1⟩ := sampleSource_ok hs
        obtain ⟨ihsizes, ihp, blocks, ihrows, ihlen, ihsub⟩ :=
          ih pctr2 cctr2 rows2 sizes2 pctr3 cctr3 hm
        refine ⟨?_, ?_, rows1 :: blocks, ?_, ?_, ?_⟩
        · rw [ihsizes, specPoissonSizes, hsz, hp2]
        · rw [ihp, hp2, List.length_cons]
          omega
        · simp [ihrows]
        · simp [ihlen]
        · intro i h1 h2
          cases i with
          | zero =>
            show List.Subperm rows1 s.pool
            rw [hr1, hsz]
            exact drawWR_subperm rng _ s.pool cctr hle
          | succ j =>
            exact ihsub j (Nat.lt_of_succ_lt_succ h1) (Nat.lt_of_succ_lt_succ h2)

/-- C5 (confirmed): rows are drawn without replacement — the merged
sampled data set of one trial splits into one block per source, each
block a sub-permutation of the pool of that source (so a duplicate-free pool
contributes no row twice); and a pool smaller than the realized Poisson
size makes the sampling raise `ValueError` instead of repeating rows. -/
theorem C5_sampling_without_replacement
    (rng : Rng) (pctr cctr : Nat) (srcs : List SampleSource)
    (rows : List Row) (sizes : List (String × Nat)) (p2 c2 : Nat)
    (h : mergeSampled rng pctr cctr srcs = .ok (rows, sizes, p2, c2)) :
    (∃ blocks : List (List Row),
        rows = blocks.flatten ∧ blocks.length = srcs.length ∧
        ∀ i (h1 : i < blocks.length) (h2 : i < srcs.length),
          List.Subperm (blocks.get ⟨i, h1⟩) (srcs.get ⟨i, h2⟩).pool ∧
          ((srcs.get ⟨i, h2⟩).pool.Nodup → (blocks.get ⟨i, h1⟩).Nodup)) ∧
    (∀ (p c : Nat) (s : SampleSource), s.pool.length < rng.poisson p s.nevents →
      sampleSource rng p c s = .error .valueError) := by
  obtain ⟨-, -, blocks, hrows, hlen, hsub⟩ := mergeSampled_ok srcs pctr cctr rows sizes p2 c2 h
  refine ⟨⟨blocks, hrows, hlen, ?_⟩, fun p c s hlt => sampleSource_err hlt⟩
  intro i h1 h2
  exact ⟨hsub i h1 h2, fun hnd => subpermNodup (hsub i h1 h2) hnd⟩

/-- C5 witness: the concrete one-source draw, where the pool is
duplicate-free and the realized size is 1. -/
theorem C5_witness :
    ∃ blocks : List (List Row),
      [[("x", Val.int 1)]] = blocks.flatten ∧
      blocks.length = [srcAW].length ∧
      ∀ i (h1 : i < blocks.length)
        (h2 : i < [srcAW].length),
        List.Subperm (blocks.get ⟨i, h1⟩)
          ([srcAW].get ⟨i, h2⟩).pool ∧
        (([srcAW].get ⟨i, h2⟩).pool.Nodup →
          (blocks.get ⟨i, h1⟩).Nodup) :=
  (C5_sampling_without_replacement rngW 0 0
    [srcAW]
    [[("x", Val.int 1)]] [("A", 1)] 1 1 (by decide)).1

/-- C3 (corrected): the sampler adds no column whatsoever — every row of
the merged sampled data set is literally one of the rows of the pool of
some source, so a declared category is never materialized into the data. -/
theorem C3_sampler_rows_unchanged
    (rng : Rng) (pctr cctr : Nat) (srcs : List SampleSource)
    (rows : List Row) (sizes : List (String × Nat)) (p2 c2 : Nat)
    (h : mergeSampled rng pctr cctr srcs = .ok (rows, sizes, p2, c2)) :
    ∀ r ∈ rows, ∃ s ∈ srcs, r ∈ s.pool := by
  obtain ⟨-, -, blocks, hrows, hlen, hsub⟩ := mergeSampled_ok srcs pctr cctr rows sizes p2 c2 h
  intro r hr
  rw [hrows] at hr
  obtain ⟨b, hb, hrb⟩ := List.mem_flatten.mp hr
  obtain ⟨i, hib⟩ := List.mem_iff_get.mp hb
  have h2 : (i : Nat) < srcs.length := by omega
  refine ⟨srcs.get ⟨i, h2⟩, List.get_mem srcs _ _, ?_⟩
  exact (hsub i i.isLt h2).subset (hib ▸ hrb)

/-- C3 witness: on the concrete one-source configuration, the single
sampled row is the first pool row. -/
theorem C3_witness :
    ∃ s ∈ [srcAW], [("x", Val.int 1)] ∈ s.pool :=
  C3_sampler_rows_unchanged rngW 0 0
    [srcAW]
    [[("x", Val.int 1)]] [("A", 1)] 1 1 (by decide)
    [("x", Val.int 1)] (by decide)

/-- C3 counterexample: the configuration declares category `sig` for its
single source, the loader keeps the declaration out of the sampling
inputs, and the one sampled row of the trial holds the value `sig` in no
column at all (its only cell value is the integer 1) — so no row carries
the declared category in a dedicated column. -/
theorem C3_counterexample :
    (cfgW.data.map fun d => d.2.category) = [some "sig"] ∧
    loadSources cfgW toysW =
      .ok ([srcAW],
           [(truthKey "x" "A", Val.int 5)]) ∧
    mergeSampled rngW 0 0 [srcAW]
      = .ok ([[("x", Val.int 1)]], [("A", 1)], 1, 1) ∧
    decide (Val.str "sig" ∈ rowValues [("x", Val.int 1)]) = false := by
  decide

/-- Inversion of a successful `get_datasets`: the sizes, counters and the
underlying merged data set come from `mergeSampled`. -/
theorem get_datasets_ok {rng : Rng} {pctr cctr : Nat} {sources : List SampleSource}
    {transformers : List (String × (List Row → List Row))}
    {ds : List (String × List Row)} {sizes : List (String × Nat)} {p2 c2 : Nat}
    (h : get_datasets rng pctr cctr sources transformers = .ok (ds, sizes, p2, c2)) :
    ∃ merged, mergeSampled rng pctr cctr sources = .ok (merged, sizes, p2, c2) ∧
      ds = transformers.map (fun nt => (nt.1, nt.2 merged)) := by
  rcases hm : mergeSampled rng pctr cctr sources with e | ⟨merged, sizes2, q2, d2⟩
  · rw [get_datasets, hm] at h
    simp at h
  · rw [get_datasets, hm] at h
    simp only [exceptBindOk, Except.ok.injEq, Prod.mk.injEq] at h
    obtain ⟨h1, h2, h3, h4⟩ := h
    refine ⟨merged, ?_, h1.symm⟩
    rw [h2, h3, h4]

/-- Inversion of a successful `fitModelStrategies`: one record per
strategy in order, each row ending with its `fit_status` column. -/
theorem fitModelStrategies_ok
    (fitOracle : Nat → String → String → List Row → Except PyExc FitOutcome)
    (t : Nat) (m : String) (ds : List Row) :
    ∀ (strategies : List String) (res : List ((String × String) × Row)),
      fitModelStrategies fitOracle t m ds strategies = .ok res →
      res.map Prod.fst = strategies.map (fun s => (m, s)) ∧
      ∀ e ∈ res, ∃ ps st, e.2 = ps ++ [("fit_status", Val.int st)] := by
  intro strategies
  induction strategies with
  | nil =>
    intro res h
    simp only [fitModelStrategies, Except.ok.injEq] at h
    subst h
    simp
  | cons s rest ih =>
    intro res h
    rcases ho : fitOracle t m s ds with e | outcome
    · rw [fitModelStrategies, ho] at h
      simp at h
    · rw [fitModelStrategies, ho] at h
      simp only [exceptBindOk] at h
      rcases hr : fitModelStrategies fitOracle t m ds rest with e | tail
      · rw [hr] at h
        simp at h
      · rw [hr] at h
        simp only [exceptBindOk, Except.ok.injEq] at h
        subst h
        obtain ⟨ih1, ih2⟩ := ih tail hr
        constructor
        · simp [ih1]
        · intro e he
          rcases List.mem_cons.mp he with he | he
          · subst he
            exact ⟨outcome.params, outcome.status, rfl⟩
          · exact ih2 e he

/-- Inversion of a successful `fitTrial`: the records satisfy the trial
shape invariant. -/
theorem fitTrial_ok
    (fitOracle : Nat → String → String → List Row → Except PyExc FitOutcome)
    (t : Nat) (datasets : List (String × List Row)) (strategies : List String) :
    ∀ (models : List String) (res : List ((String × String) × Row)),
      fitTrial fitOracle t datasets strategies models = .ok res →
      trialShape models strategies res := by
  intro models
  induction models with
  | nil =>
    intro res h
    simp only [fitTrial, Except.ok.injEq] at h
    subst h
    exact ⟨by simp [modelStrategyKeys], by simp⟩
  | cons m rest ih =>
    intro res h
    rcases hh : fitModelStrategies fitOracle t m
        (((datasets.find? (fun e => e.1 = m)).map Prod.snd).getD []) strategies with e | head
    · rw [fitTrial, hh] at h
      simp at h
    · rw [fitTrial, hh] at h
      simp only [exceptBindOk] at h
      rcases ht : fitTrial fitOracle t datasets strategies rest with e | tail
      · rw [ht] at h
        simp at h
      · rw [ht] at h
        simp only [exceptBindOk, Except.ok.injEq] at h
        subst h
        obtain ⟨h1, h2⟩ := fitModelStrategies_ok fitOracle t m _ strategies head hh
        obtain ⟨ih1, ih2⟩ := ih tail ht
        constructor
        · have hk : modelStrategyKeys (m :: rest) strategies
              = strategies.map (fun s => (m, s)) ++ modelStrategyKeys rest strategies := by
            simp [modelStrategyKeys]
          rw [List.map_append, h1, ih1, hk]
        · intro e he
          rcases List.mem_append.mp he with he | he
          · exact h2 e he
          · exact ih2 e he

/-- Inversion of a successful trial loop: exactly `k` trials are
produced, each sample-size record is the block of Poisson draws of its
trial (the Poisson counter advancing by the source count every trial),
and every trial record satisfies the shape invariant. -/
theorem trialLoopAux_ok (rng : Rng) (sources : List SampleSource)
    (transformers : List (String × (List Row → List Row)))
    (fitOracle : Nat → String → String → List Row → Except PyExc FitOutcome)
    (models strategies : List String) :
    ∀ (k t pctr cctr : Nat) (perTrial : List (List ((String × String) × Row)))
      (genEvents : List (List (String × Nat))) (p c : Nat),
      trialLoopAux rng sources transformers fitOracle models strategies t k pctr cctr
        = .ok (perTrial, genEvents, p, c) →
      perTrial.length = k ∧ genEvents.length = k ∧
      (∀ j (hj : j < genEvents.length),
        genEvents.get ⟨j, hj⟩ = specPoissonSizes rng (pctr + j * sources.length) sources) ∧
      (∀ tr ∈ perTrial, trialShape models strategies tr) := by
  intro k
  induction k with
  | zero =>
    intro t pctr cctr perTrial genEvents p c h
    simp only [trialLoopAux, Except.ok.injEq, Prod.mk.injEq] at h
    obtain ⟨h1, h2, -, -⟩ := h
    subst h1
    subst h2
    refine ⟨rfl, rfl, ?_, ?_⟩
    · intro j hj
      simp at hj
    · intro tr htr
      simp at htr
  | succ n ih =>
    intro t pctr cctr perTrial genEvents p c h
    rcases hg : get_datasets rng pctr cctr sources transformers with e | ⟨datasets, sizes, p2, c2⟩
    · rw [trialLoopAux, hg] at h
      simp at h
    · rw [trialLoopAux, hg] at h
      simp only [exceptBindOk] at h
      rcases hf : fitTrial fitOracle t datasets strategies models with e | results
      · rw [hf] at h
        simp at h
      · rw [hf] at h
        simp only [exceptBindOk] at h
        rcases hl : trialLoopAux rng sources transformers fitOracle models strategies
            (t + 1) n p2 c2 with e | ⟨restRes, restGen, p3, c3⟩
        · rw [hl] at h
          simp at h
        · rw [hl] at h
          simp only [exceptBindOk, Except.ok.injEq, Prod.mk.injEq] at h
          obtain ⟨h1, h2, -, -⟩ := h
          subst h1
          subst h2
          obtain ⟨me, hmerge, -⟩ := get_datasets_ok hg
          obtain ⟨hsizes, hp2, -⟩ := mergeSampled_ok sources pctr cctr me sizes p2 c2 hmerge
          obtain ⟨ihl1, ihl2, ihl3, ihl4⟩ := ih (t + 1) p2 c2 restRes restGen p3 c3 hl
          refine ⟨by simp [ihl1], by simp [ihl2], ?_, ?_⟩
          · intro j hj
            cases j with
            | zero =>
              show sizes = specPoissonSizes rng (pctr + 0 * sources.length) sources
              simpa using hsizes
            | succ i =>
              have hi : i < restGen.length := Nat.lt_of_succ_lt_succ hj
              have h3 := ihl3 i hi
              have harith : p2 + i * sources.length
                  = pctr + (i + 1) * sources.length := by
                rw [hp2]
                ring
              show restGen.get ⟨i, hi⟩
                  = specPoissonSizes rng (pctr + (i + 1) * sources.length) sources
              rw [h3, harith]
          · intro tr htr
            rcases List.mem_cons.mp htr with htr | htr
            · rw [htr]
              exact fitTrial_ok fitOracle t datasets strategies models results hf
            · exact ihl4 tr htr

/-- C8 (confirmed): a completed trial loop executed exactly the
configured number of trials — its per-trial record lists have length
exactly `nfits` — and the run consults no prior state: the run status is
the same whatever output store it is pointed at, so a partially completed
prior run is never resumed. -/
theorem C8_exact_trial_count
    (rng : Rng) (sources : List SampleSource)
    (transformers : List (String × (List Row → List Row)))
    (fitOracle : Nat → String → String → List Row → Except PyExc FitOutcome)
    (models strategies : List String) (nfits : Nat)
    (perTrial : List (List ((String × String) × Row)))
    (genEvents : List (List (String × Nat))) (p c : Nat)
    (h : trialLoop rng sources transformers fitOracle models strategies nfits
      = .ok (perTrial, genEvents, p, c)) :
    perTrial.length = nfits ∧ genEvents.length = nfits ∧
    ∀ (cfg : RunConfig) (toys : String → Option ToyData)
      (transforms : String → List Row → List Row)
      (fo : Nat → String → String → List Row → Except PyExc FitOutcome)
      (rng2 : Rng) (gtp : String → String) (env : Option Nat) (seed : Nat)
      (s1 s2 : HDFStore),
      (runModel cfg toys transforms fo rng2 gtp env seed s1).1 =
        (runModel cfg toys transforms fo rng2 gtp env seed s2).1 := by
  obtain ⟨h1, h2, -, -⟩ := trialLoopAux_ok rng sources transformers fitOracle models strategies
    nfits 0 0 0 perTrial genEvents p c h
  refine ⟨h1, h2, ?_⟩
  intro cfg toys transforms fo rng2 gtp env seed s1 s2
  rcases hr : runCore cfg toys transforms fo rng2 with e | frame <;> simp [runModel, hr]

/-- C8 witness: the concrete three-trial loop produced exactly three
trial records. -/
theorem C8_witness : perTrialW.length = 3 :=
  (C8_exact_trial_count rngW [srcAW] [("M", transformsW "M")] fitOracleW
    ["M"] ["simple"] 3 perTrialW genEventsW 3 3 (by decide)).1

/-- C4 (confirmed): on a completed loop, the sample-size record of trial
`j` is exactly `specPoissonSizes` at base index `j * numSources` — every
source `i` of every trial `j` realizes its size as the Poisson draw of
mean equal to its own `nevents` taken at stream index
`j * numSources + i`; and that indexing is injective, so no draw is
reused across sources or trials. -/
theorem C4_poisson_fresh_per_source_per_trial
    (rng : Rng) (sources : List SampleSource)
    (transformers : List (String × (List Row → List Row)))
    (fitOracle : Nat → String → String → List Row → Except PyExc FitOutcome)
    (models strategies : List String) (nfits : Nat)
    (perTrial : List (List ((String × String) × Row)))
    (genEvents : List (List (String × Nat))) (p c : Nat)
    (h : trialLoop rng sources transformers fitOracle models strategies nfits
      = .ok (perTrial, genEvents, p, c)) :
    (∀ j (hj : j < genEvents.length),
      genEvents.get ⟨j, hj⟩ = specPoissonSizes rng (j * sources.length) sources) ∧
    (∀ t1 i1 t2 i2 : Nat, i1 < sources.length → i2 < sources.length →
      t1 * sources.length + i1 = t2 * sources.length + i2 → t1 = t2 ∧ i1 = i2) := by
  obtain ⟨-, -, h3, -⟩ := trialLoopAux_ok rng sources transformers fitOracle models strategies
    nfits 0 0 0 perTrial genEvents p c h
  constructor
  · intro j hj
    simpa using h3 j hj
  · intro t1 i1 t2 i2 hi1 hi2 heq
    have hlen : 0 < sources.length := Nat.lt_of_le_of_lt (Nat.zero_le i1) hi1
    have e1 : (t1 * sources.length + i1) / sources.length = t1 := by
      rw [Nat.mul_comm, Nat.mul_add_div hlen, Nat.div_eq_of_lt hi1, Nat.add_zero]
    have e2 : (t2 * sources.length + i2) / sources.length = t2 := by
      rw [Nat.mul_comm, Nat.mul_add_div hlen, Nat.div_eq_of_lt hi2, Nat.add_zero]
    have ht : t1 = t2 := by
      rw [← e1, heq, e2]
    subst ht
    exact ⟨rfl, Nat.add_left_cancel heq⟩

/-- C4 witness: the first trial of the concrete three-trial loop drew its
size for source `A` at stream index 0 with mean 100. -/
theorem C4_witness :
    genEventsW.get ⟨0, by decide⟩ = specPoissonSizes rngW (0 * [srcAW].length) [srcAW] :=
  (C4_poisson_fresh_per_source_per_trial rngW [srcAW] [("M", transformsW "M")] fitOracleW
    ["M"] ["simple"] 3 perTrialW genEventsW 3 3 (by decide)).1 0 (by decide)

/-- When every named parameter exists and every `configure_parameter`
call succeeds, the constraint loop over one PDF succeeds and returns
exactly the constraints those calls produced. -/
theorem configurePdf_ok (cp : String → String → Except PyExc (Option String))
    (factory : PhysicsFactory) :
    ∀ (pcs : List (String × String)),
      (∀ pc ∈ pcs, pc.1 ∈ factory.fitParams ∧ ∃ c, cp pc.1 pc.2 = .ok c) →
      configurePdf cp factory pcs
        = .ok (pcs.flatMap fun pc =>
            match cp pc.1 pc.2 with
            | .ok (some c) => [c]
            | _ => []) := by
  intro pcs
  induction pcs with
  | nil =>
    intro _
    rfl
  | cons pc rest ih =>
    intro hall
    obtain ⟨hmem, c, hc⟩ := hall pc (List.mem_cons_self pc rest)
    have hrest := ih (fun q hq => hall q (List.mem_cons_of_mem pc hq))
    cases c with
    | none => simp [configurePdf, hmem, hc, hrest]
    | some x => simp [configurePdf, hmem, hc, hrest]

/-- When every constraint of every PDF of an element configures
successfully, the element loop returns the accumulated constraints. -/
theorem configureElement_ok (cp : String → String → Except PyExc (Option String))
    (factory : PhysicsFactory) :
    ∀ (pdfs : List (String × PdfConfig)),
      (∀ p ∈ pdfs, ∀ pc ∈ p.2.paramConstraints,
        pc.1 ∈ factory.fitParams ∧ ∃ c, cp pc.1 pc.2 = .ok c) →
      configureElement cp factory pdfs = .ok (okConstraints cp pdfs) := by
  intro pdfs
  induction pdfs with
  | nil =>
    intro _
    rfl
  | cons p rest ih =>
    intro hall
    have hp := configurePdf_ok cp factory p.2.paramConstraints
      (hall p (List.mem_cons_self p rest))
    have hrest := ih (fun q hq => hall q (List.mem_cons_of_mem p hq))
    simp [configureElement, hp, hrest, okConstraints]

/-- The element loop of `load_pdfs` against a fixed observable set `mo`:
given successful factory lookups and parameter configuration, it succeeds
exactly when every element has observable set `mo`, returning one factory
per element and the accumulated constraints; any deviating element makes
it raise `KeyError`. -/
theorem load_pdfsAux_some
    (gf : List (String × PdfConfig) → Except Unit PhysicsFactory)
    (cp : String → String → Except PyExc (Option String))
    (fac : String × ModelElement → PhysicsFactory) :
    ∀ (l : List (String × ModelElement)) (mo : Finset String),
      (∀ e ∈ l, gf e.2.pdfs = .ok (fac e)) →
      (∀ e ∈ l, configureElement cp (fac e) e.2.pdfs = .ok (okConstraints cp e.2.pdfs)) →
      (((∀ e ∈ l, (fac e).observables.toFinset = mo) →
         load_pdfsAux gf cp (some mo) l
           = .ok (l.map (fun e => (e.1, fac e)),
                  l.flatMap (fun e => okConstraints cp e.2.pdfs))) ∧
       ((¬ ∀ e ∈ l, (fac e).observables.toFinset = mo) →
         load_pdfsAux gf cp (some mo) l = .error .keyError)) := by
  intro l
  induction l with
  | nil =>
    intro mo _ _
    constructor
    · intro _
      rfl
    · intro hno
      exact absurd (by intro e he; simp at he) hno
  | cons e rest ih =>
    intro mo hgf hcfg
    have hgfe := hgf e (List.mem_cons_self e rest)
    have hcfge := hcfg e (List.mem_cons_self e rest)
    obtain ⟨ih1, ih2⟩ := ih mo (fun q hq => hgf q (List.mem_cons_of_mem e hq))
      (fun q hq => hcfg q (List.mem_cons_of_mem e hq))
    obtain ⟨name, elem⟩ := e
    constructor
    · intro hall
      have he := hall (name, elem) (List.mem_cons_self (name, elem) rest)
      have hrest := ih1 (fun q hq => hall q (List.mem_cons_of_mem (name, elem) hq))
      simp [load_pdfsAux, hgfe, he, hcfge, hrest]
    · intro hno
      by_cases he : (fac (name, elem)).observables.toFinset = mo
      · have hnr : ¬ ∀ q ∈ rest, (fac q).observables.toFinset = mo := by
          intro hr
          refine hno ?_
          intro q hq
          rcases List.mem_cons.mp hq with h | h
          · rw [h]
            exact he
          · exact hr q h
        have hrest := ih2 hnr
        simp [load_pdfsAux, hgfe, he, hcfge, hrest]
      · have hne : mo ≠ (fac (name, elem)).observables.toFinset := fun h => he h.symm
        simp [load_pdfsAux, hgfe, hne]

/-- C9 (confirmed): under successful factory lookups and parameter
configuration, `load_pdfs` succeeds — returning one factory per named
element plus the accumulated external constraints — exactly when every
element declares the same observable set as the first element; as soon as
any element deviates (hence whenever any two elements differ), it raises
an error and yields no factories. -/
theorem C9_load_pdfs_observable_uniformity
    (gf : List (String × PdfConfig) → Except Unit PhysicsFactory)
    (cp : String → String → Except PyExc (Option String))
    (hd : String × ModelElement) (tl : List (String × ModelElement))
    (fac : String × ModelElement → PhysicsFactory)
    (hgf : ∀ e ∈ hd :: tl, gf e.2.pdfs = .ok (fac e))
    (hcp : ∀ e ∈ hd :: tl, ∀ p ∈ e.2.pdfs, ∀ pc ∈ p.2.paramConstraints,
      pc.1 ∈ (fac e).fitParams ∧ ∃ c, cp pc.1 pc.2 = .ok c) :
    (load_pdfs gf cp (hd :: tl)
        = .ok ((hd :: tl).map (fun e => (e.1, fac e)),
               (hd :: tl).flatMap (fun e => okConstraints cp e.2.pdfs))
      ↔ ∀ e ∈ hd :: tl,
          (fac e).observables.toFinset = (fac hd).observables.toFinset) ∧
    ((¬ ∀ e ∈ hd :: tl,
        (fac e).observables.toFinset = (fac hd).observables.toFinset) →
      load_pdfs gf cp (hd :: tl) = .error PyExc.keyError) := by
  have hcfg : ∀ e ∈ hd :: tl,
      configureElement cp (fac e) e.2.pdfs = .ok (okConstraints cp e.2.pdfs) :=
    fun e he => configureElement_ok cp (fac e) e.2.pdfs (hcp e he)
  have hgfhd := hgf hd (List.mem_cons_self hd tl)
  have hcfghd := hcfg hd (List.mem_cons_self hd tl)
  obtain ⟨ihA, ihB⟩ := load_pdfsAux_some gf cp fac tl
    ((fac hd).observables.toFinset)
    (fun q hq => hgf q (List.mem_cons_of_mem hd hq))
    (fun q hq => hcfg q (List.mem_cons_of_mem hd hq))
  obtain ⟨name, elem⟩ := hd
  constructor
  · constructor
    · intro hok
      by_contra hno
      have hnr : ¬ ∀ q ∈ tl, (fac q).observables.toFinset
          = (fac (name, elem)).observables.toFinset := by
        intro hr
        refine hno ?_
        intro q hq
        rcases List.mem_cons.mp hq with h | h
        · rw [h]
        · exact hr q h
      have herr := ihB hnr
      rw [load_pdfs] at hok
      simp [load_pdfsAux, hgfhd, hcfghd, herr] at hok
    · intro hall
      have hrest := ihA (fun q hq => hall q (List.mem_cons_of_mem (name, elem) hq))
      rw [load_pdfs]
      simp [load_pdfsAux, hgfhd, hcfghd, hrest]
  · intro hno
    have hnr : ¬ ∀ q ∈ tl, (fac q).observables.toFinset
        = (fac (name, elem)).observables.toFinset := by
      intro hr
      refine hno ?_
      intro q hq
      rcases List.mem_cons.mp hq with h | h
      · rw [h]
      · exact hr q h
    have herr := ihB hnr
    rw [load_pdfs]
    simp [load_pdfsAux, hgfhd, hcfghd, herr]

/-- C9 witness: a concrete two-element model whose factories share the
observable set loads successfully, one factory per element. -/
theorem C9_witness :
    load_pdfs gfW cpW [("sig", elemW), ("bkg", elemW)]
      = .ok (([("sig", elemW), ("bkg", elemW)]).map (fun e => (e.1, facW e)),
             ([("sig", elemW), ("bkg", elemW)]).flatMap
               (fun e => okConstraints cpW e.2.pdfs)) :=
  (C9_load_pdfs_observable_uniformity gfW cpW ("sig", elemW) [("bkg", elemW)] facW
    (by intro e he; rfl)
    (by
      intro e he p hp pc hpc
      exfalso
      rcases List.mem_cons.mp he with h | h
      · subst h
        simp [elemW] at hp
        subst hp
        simp at hpc
      · rcases List.mem_cons.mp h with h2 | h2
        · subst h2
          simp [elemW] at hp
          subst hp
          simp at hpc
        · simp at h2)).1.mpr (by intro e he; rfl)

/-- A key present among the record keys is found by `lookupPair`. -/
theorem lookupPair_isSome {k : String × String} :
    ∀ {l : List ((String × String) × Row)}, k ∈ l.map Prod.fst →
      ∃ r, lookupPair k l = some r := by
  intro l
  induction l with
  | nil =>
    intro h
    simp at h
  | cons e rest ih =>
    intro h
    by_cases hek : e.1 = k
    · exact ⟨e.2, by simp [lookupPair, hek]⟩
    · rw [List.map_cons] at h
      rcases List.mem_cons.mp h with h1 | h1
      · exact absurd h1.symm hek
      · obtain ⟨r, hr⟩ := ih h1
        exact ⟨r, by simp [lookupPair, hek, hr]⟩

/-- What `lookupPair` returns is one of the records. -/
theorem lookupPair_mem {k : String × String} :
    ∀ {l : List ((String × String) × Row)} {r : Row},
      lookupPair k l = some r → (k, r) ∈ l := by
  intro l
  induction l with
  | nil =>
    intro r h
    simp [lookupPair] at h
  | cons e rest ih =>
    intro r h
    rw [lookupPair] at h
    split at h
    · rename_i heq
      injection h with h2
      subst h2
      subst heq
      simp
    · exact List.mem_cons_of_mem e (ih h)

/-- Mapping with `filterMap` where the function always succeeds keeps the
length. -/
theorem filterMap_length_all_some {α β : Type} (f : α → Option β) :
    ∀ (l : List α), (∀ x ∈ l, (f x).isSome) → (l.filterMap f).length = l.length := by
  intro l
  induction l with
  | nil =>
    intro _
    rfl
  | cons x rest ih =>
    intro h
    obtain ⟨b, hb⟩ := Option.isSome_iff_exists.mp (h x (List.mem_cons_self x rest))
    rw [List.filterMap_cons, hb]
    simp [ih (fun y hy => h y (List.mem_cons_of_mem x hy))]

/-- Summing a constant over a list multiplies it by the length. -/
theorem map_const_sum {α : Type} : ∀ (l : List α) (c : Nat),
    (l.map (fun _ => c)).sum = l.length * c := by
  intro l c
  induction l with
  | nil => simp
  | cons x rest ih => simp [ih, Nat.succ_mul, Nat.add_comm]

/-- The `(model, strategy)` key list has one entry per pair. -/
theorem modelStrategyKeys_length (models strategies : List String) :
    (modelStrategyKeys models strategies).length
      = models.length * strategies.length := by
  induction models with
  | nil => simp [modelStrategyKeys]
  | cons m rest ih =>
    have h1 : modelStrategyKeys (m :: rest) strategies
        = strategies.map (fun s => (m, s)) ++ modelStrategyKeys rest strategies := by
      simp [modelStrategyKeys]
    rw [h1, List.length_append, List.length_map, ih, List.length_cons]
    ring

/-- Membership in the key list is componentwise membership. -/
theorem mem_modelStrategyKeys {key : String × String} {models strategies : List String} :
    key ∈ modelStrategyKeys models strategies ↔
      key.1 ∈ models ∧ key.2 ∈ strategies := by
  constructor
  · intro h
    obtain ⟨m, hm, hkey⟩ := List.mem_flatMap.mp h
    obtain ⟨s, hs, hpair⟩ := List.mem_map.mp hkey
    subst hpair
    exact ⟨hm, hs⟩
  · intro h
    exact List.mem_flatMap.mpr ⟨key.1, h.1,
      List.mem_map.mpr ⟨key.2, h.2, Prod.mk.eta⟩⟩

/-- Row count of the flat result rows: one per key per trial. -/
theorem dataRes_length (models strategies : List String)
    (perTrial : List (List ((String × String) × Row)))
    (hshape : ∀ tr ∈ perTrial, trialShape models strategies tr) :
    (dataRes models strategies perTrial).length
      = models.length * strategies.length * perTrial.length := by
  rw [dataRes, List.length_flatMap]
  have hkey : ∀ key ∈ modelStrategyKeys models strategies,
      (List.length ∘ fun key =>
        List.map (fun r => r ++ [("model_name", Val.str key.1),
                                 ("fit_strategy", Val.str key.2)])
          (List.filterMap (fun tr => lookupPair key tr) perTrial)) key
      = perTrial.length := by
    intro key hk
    simp only [Function.comp_apply, List.length_map]
    apply filterMap_length_all_some
    intro tr htr
    obtain ⟨hfst, -⟩ := hshape tr htr
    obtain ⟨r, hr⟩ := lookupPair_isSome (k := key) (l := tr) (by rw [hfst]; exact hk)
    simp [hr]
  rw [List.map_congr_left hkey, map_const_sum, modelStrategyKeys_length]

/-- Every flat result row carries its model name, strategy name and fit
status. -/
theorem dataRes_mem {models strategies : List String}
    {perTrial : List (List ((String × String) × Row))} {r : Row}
    (hshape : ∀ tr ∈ perTrial, trialShape models strategies tr)
    (hr : r ∈ dataRes models strategies perTrial) :
    ∃ m s st, m ∈ models ∧ s ∈ strategies ∧
      ("model_name", Val.str m) ∈ r ∧ ("fit_strategy", Val.str s) ∈ r ∧
      ("fit_status", Val.int st) ∈ r := by
  obtain ⟨key, hkey, hr2⟩ := List.mem_flatMap.mp hr
  obtain ⟨base, hbase, hreq⟩ := List.mem_map.mp hr2
  obtain ⟨tr, htr, hlk⟩ := List.mem_filterMap.mp hbase
  have hmem := lookupPair_mem hlk
  obtain ⟨-, hrowshape⟩ := hshape tr htr
  obtain ⟨ps, st, hst⟩ := hrowshape (key, base) hmem
  obtain ⟨hm, hs⟩ := mem_modelStrategyKeys.mp hkey
  have hb : base = ps ++ [("fit_status", Val.int st)] := hst
  refine ⟨key.1, key.2, st, hm, hs, ?_, ?_, ?_⟩
  · rw [← hreq]
    simp
  · rw [← hreq]
    simp
  · rw [← hreq]
    refine List.mem_append.mpr (Or.inl ?_)
    rw [hb]
    simp

/-- Length of a column-wise concatenation. -/
theorem concatCols_length (a b : List Row) :
    (concatCols a b).length = max a.length b.length := by
  simp [concatCols]

/-- Row `i` of a column-wise concatenation. -/
theorem concatCols_getElem (a b : List Row) (i : Nat) (h : i < (concatCols a b).length) :
    (concatCols a b)[i] = a.getD i (padRow a) ++ b.getD i (padRow b) := by
  simp [concatCols]

/-- Any row of a column-wise concatenation splits positionally. -/
theorem mem_concatCols {a b : List Row} {r : Row} (h : r ∈ concatCols a b) :
    ∃ i, i < max a.length b.length ∧
      r = a.getD i (padRow a) ++ b.getD i (padRow b) := by
  rw [concatCols] at h
  obtain ⟨i, hir, hri⟩ := List.mem_map.mp h
  exact ⟨i, List.mem_range.mp hir, hri.symm⟩

/-- Length of the pull frame. -/
theorem calculate_pulls_length (dataF genF : List Row) :
    (calculate_pulls dataF genF).length = dataF.length := by
  simp [calculate_pulls]

/-- The keys of the spec-side size row are the source names. -/
theorem specPoissonSizes_fst (rng : Rng) :
    ∀ (p : Nat) (srcs : List SampleSource),
      (specPoissonSizes rng p srcs).map Prod.fst = srcs.map SampleSource.name := by
  intro p srcs
  induction srcs generalizing p with
  | nil => rfl
  | cons s rest ih => simp [specPoissonSizes, ih]

/-- A key present in the first components has a witness pair. -/
theorem mem_map_fst {α β : Type} {a : α} {l : List (α × β)}
    (h : a ∈ l.map Prod.fst) : ∃ b, (a, b) ∈ l := by
  obtain ⟨p, hp, he⟩ := List.mem_map.mp h
  refine ⟨p.2, ?_⟩
  rw [← he]
  simpa using hp

/-- Inversion of a successful `loadSourcesAux`: the sampling sources keep
the configured names in order. -/
theorem loadSourcesAux_ok (toys : String → Option ToyData) :
    ∀ (ds : List (String × DataSource)) (srcs : List SampleSource)
      (gvs : List (String × Val)),
      loadSourcesAux toys ds = .ok (srcs, gvs) →
      srcs.map SampleSource.name = ds.map Prod.fst := by
  intro ds
  induction ds with
  | nil =>
    intro srcs gvs h
    simp only [loadSourcesAux, Except.ok.injEq, Prod.mk.injEq] at h
    obtain ⟨h1, -⟩ := h
    subst h1
    rfl
  | cons nd rest ih =>
    intro srcs gvs h
    obtain ⟨name, d⟩ := nd
    rw [loadSourcesAux] at h
    rcases ht : toys d.source with _ | toy
    · rw [ht] at h
      simp at h
    · rw [ht] at h
      rcases hrec : loadSourcesAux toys rest with e | ⟨srcs2, gvs2⟩
      · rw [hrec] at h
        simp at h
      · rw [hrec] at h
        simp only [exceptBindOk, Except.ok.injEq, Prod.mk.injEq] at h
        obtain ⟨h1, -⟩ := h
        subst h1
        simp [ih srcs2 gvs2 hrec]

/-- Inversion of a successful `runCore`: models and strategies are
configured, the sources loaded, the trial loop completed, and the frame
is the aggregate build. -/
theorem runCore_ok {cfg : RunConfig} {toys : String → Option ToyData}
    {transforms : String → List Row → List Row}
    {fitOracle : Nat → String → String → List Row → Except PyExc FitOutcome}
    {rng : Rng} {frame : List Row}
    (h : runCore cfg toys transforms fitOracle rng = .ok frame) :
    cfg.models ≠ [] ∧ cfg.strategies ≠ [] ∧
    ∃ sources genValues perTrial genEvents p c,
      loadSources cfg toys = .ok (sources, genValues) ∧
      trialLoop rng sources (cfg.models.map fun m => (m, transforms m)) fitOracle
        cfg.models cfg.strategies cfg.nfits = .ok (perTrial, genEvents, p, c) ∧
      frame = buildFrame cfg genValues perTrial genEvents := by
  rw [runCore] at h
  by_cases hm : cfg.models = []
  · simp [hm] at h
  · rw [if_neg hm] at h
    by_cases hst : cfg.strategies = []
    · simp [hst] at h
    · rw [if_neg hst] at h
      rcases hls : loadSources cfg toys with e | ⟨sources, genValues⟩
      · rw [hls] at h
        simp at h
      · rw [hls] at h
        simp only [exceptBindOk] at h
        rcases htl : trialLoop rng sources (cfg.models.map fun m => (m, transforms m))
            fitOracle cfg.models cfg.strategies cfg.nfits
          with e | ⟨perTrial, genEvents, p, c⟩
        · rw [htl] at h
          simp at h
        · rw [htl] at h
          simp only [exceptBindOk, Except.ok.injEq] at h
          exact ⟨hm, hst, sources, genValues, perTrial, genEvents, p, c, rfl, htl, h.symm⟩

/-- C6 (corrected): the aggregate table of a completed run has exactly
`nfits * #models * #strategies` rows; every row carries a configured
model name, a configured strategy name and an integer fit status; and
every row carries a generated-sample-size column for every configured
source (null-padded beyond the trial-aligned block, as `pandas.concat`
does). The seed/job-identifier columns of the claim do not exist — see the
counterexample. -/
theorem C6_aggregate_table_shape
    (cfg : RunConfig) (toys : String → Option ToyData)
    (transforms : String → List Row → List Row)
    (fitOracle : Nat → String → String → List Row → Except PyExc FitOutcome)
    (rng : Rng) (frame : List Row)
    (h : runCore cfg toys transforms fitOracle rng = .ok frame) :
    frame.length = cfg.nfits * (cfg.models.length * cfg.strategies.length) ∧
    ∀ r ∈ frame,
      (∃ m ∈ cfg.models, ("model_name", Val.str m) ∈ r) ∧
      (∃ s ∈ cfg.strategies, ("fit_strategy", Val.str s) ∈ r) ∧
      (∃ st : Int, ("fit_status", Val.int st) ∈ r) ∧
      (∀ d ∈ cfg.data, ∃ v, (genKey d.1, v) ∈ r) := by
  obtain ⟨hm, hs, sources, genValues, perTrial, genEvents, p, c, hls, htl, hfr⟩ := runCore_ok h
  obtain ⟨hlen1, hlen2, hgen, hshape⟩ := trialLoopAux_ok rng sources
    (cfg.models.map fun m => (m, transforms m)) fitOracle cfg.models cfg.strategies
    cfg.nfits 0 0 0 perTrial genEvents p c htl
  have hnames := loadSourcesAux_ok toys cfg.data sources genValues hls
  have hfr2 : frame =
      concatCols
        (concatCols
          (concatCols
            (List.replicate (dataRes cfg.models cfg.strategies perTrial).length
              ((genValues.map (fun kv => (genSuffix kv.1, kv.2))) ++
               (cfg.data.map (fun nd => (nominalKey nd.1, Val.int (nd.2.nevents : Int))))))
            (genEvents.map (fun sizes =>
              sizes.map (fun ns => (genKey ns.1, Val.int (ns.2 : Int))))))
          (dataRes cfg.models cfg.strategies perTrial))
        (calculate_pulls (dataRes cfg.models cfg.strategies perTrial)
          (concatCols
            (List.replicate (dataRes cfg.models cfg.strategies perTrial).length
              ((genValues.map (fun kv => (genSuffix kv.1, kv.2))) ++
               (cfg.data.map (fun nd => (nominalKey nd.1, Val.int (nd.2.nevents : Int))))))
            (genEvents.map (fun sizes =>
              sizes.map (fun ns => (genKey ns.1, Val.int (ns.2 : Int))))))) := hfr
  set dRes := dataRes cfg.models cfg.strategies perTrial with hdR
  set base : Row := (genValues.map (fun kv => (genSuffix kv.1, kv.2))) ++
      (cfg.data.map (fun nd => (nominalKey nd.1, Val.int (nd.2.nevents : Int)))) with hbase
  set gef := genEvents.map (fun sizes =>
      sizes.map (fun ns => (genKey ns.1, Val.int (ns.2 : Int)))) with hgefdef
  set genFrame := concatCols (List.replicate dRes.length base) gef with hgF
  have hMS : 0 < cfg.models.length * cfg.strategies.length :=
    Nat.mul_pos (List.length_pos.mpr hm) (List.length_pos.mpr hs)
  have hD : dRes.length = cfg.models.length * cfg.strategies.length * cfg.nfits := by
    rw [hdR, dataRes_length cfg.models cfg.strategies perTrial hshape, hlen1]
  have hnfD : cfg.nfits ≤ dRes.length := by
    rw [hD]
    exact Nat.le_mul_of_pos_left cfg.nfits hMS
  have hgefLen : gef.length = cfg.nfits := by
    rw [hgefdef, List.length_map, hlen2]
  have hgFLen : genFrame.length = dRes.length := by
    rw [hgF, concatCols_length, List.length_replicate, hgefLen]
    exact Nat.max_eq_left hnfD
  have hinnerLen : (concatCols genFrame dRes).length = dRes.length := by
    rw [concatCols_length, hgFLen, Nat.max_self]
  have hpullsLen : (calculate_pulls dRes genFrame).length = dRes.length :=
    calculate_pulls_length _ _
  constructor
  · rw [hfr2, concatCols_length, hinnerLen, hpullsLen, Nat.max_self, hD]
    ring
  · intro r hr
    rw [hfr2] at hr
    obtain ⟨i, hilt, hrdec⟩ := mem_concatCols hr
    rw [hinnerLen, hpullsLen, Nat.max_self] at hilt
    have hXget : (concatCols genFrame dRes).getD i (padRow (concatCols genFrame dRes))
        = genFrame.getD i (padRow genFrame) ++ dRes.getD i (padRow dRes) := by
      rw [List.getD_eq_getElem _ _ (by rw [hinnerLen]; exact hilt)]
      exact concatCols_getElem genFrame dRes i (by rw [hinnerLen]; exact hilt)
    have hdget : dRes.getD i (padRow dRes) = dRes[i] :=
      List.getD_eq_getElem _ _ hilt
    have hdmem2 : dRes[i] ∈ dataRes cfg.models cfg.strategies perTrial := by
      rw [← hdR]
      exact List.getElem_mem hilt
    obtain ⟨m0, s0, st0, hm0, hs0, hmn, hfs, hstt⟩ := dataRes_mem hshape hdmem2
    have hrin : ∀ kv : String × Val, kv ∈ dRes[i] → kv ∈ r := by
      intro kv hkv
      rw [hrdec, hXget]
      refine List.mem_append.mpr (Or.inl ?_)
      refine List.mem_append.mpr (Or.inr ?_)
      rw [hdget]
      exact hkv
    have hgenrow : ∀ kv : String × Val, kv ∈ gef.getD i (padRow gef) → kv ∈ r := by
      intro kv hkv
      rw [hrdec, hXget]
      refine List.mem_append.mpr (Or.inl ?_)
      refine List.mem_append.mpr (Or.inl ?_)
      have hgfget : genFrame.getD i (padRow genFrame)
          = (List.replicate dRes.length base).getD i
              (padRow (List.replicate dRes.length base))
            ++ gef.getD i (padRow gef) := by
        rw [List.getD_eq_getElem _ _ (by rw [hgFLen]; exact hilt)]
        exact concatCols_getElem (List.replicate dRes.length base) gef i
          (by rw [← hgF, hgFLen]; exact hilt)
      rw [hgfget]
      exact List.mem_append.mpr (Or.inr hkv)
    refine ⟨⟨m0, hm0, hrin _ hmn⟩, ⟨s0, hs0, hrin _ hfs⟩, ⟨st0, hrin _ hstt⟩, ?_⟩
    intro d hd
    rcases Nat.lt_or_ge i cfg.nfits with hi | hi
    · have higef : i < gef.length := by rw [hgefLen]; exact hi
      have higev : i < genEvents.length := by rw [hlen2]; exact hi
      have hgefi : gef.getD i (padRow gef) = gef[i] := List.getD_eq_getElem _ _ higef
      have hgefim : gef[i] = (genEvents[i]).map
          (fun ns => (genKey ns.1, Val.int (ns.2 : Int))) := List.getElem_map _
      have hrowi : genEvents[i] = specPoissonSizes rng (i * sources.length) sources := by
        have hg := hgen i higev
        simpa [List.get_eq_getElem] using hg
      have hdkey : d.1 ∈ (specPoissonSizes rng (i * sources.length) sources).map Prod.fst := by
        rw [specPoissonSizes_fst, hnames]
        exact List.mem_map.mpr ⟨d, hd, rfl⟩
      obtain ⟨n, hn⟩ := mem_map_fst hdkey
      refine ⟨Val.int (n : Int), hgenrow _ ?_⟩
      rw [hgefi, hgefim, hrowi]
      exact List.mem_map.mpr ⟨(d.1, n), hn, rfl⟩
    · have hpadeq : gef.getD i (padRow gef) = padRow gef :=
        List.getD_eq_default _ _ (by rw [hgefLen]; exact hi)
      have hnf0 : 0 < cfg.nfits := by
        rcases Nat.eq_zero_or_pos cfg.nfits with h0 | h0
        · rw [h0, Nat.mul_zero] at hD
          omega
        · exact h0
      have h0gef : 0 < gef.length := by rw [hgefLen]; exact hnf0
      have h0gev : 0 < genEvents.length := by rw [hlen2]; exact hnf0
      have hrow0 : genEvents[0] = specPoissonSizes rng (0 * sources.length) sources := by
        have hg := hgen 0 h0gev
        simpa [List.get_eq_getElem] using hg
      have hgef0 : gef[0] = (genEvents[0]).map
          (fun ns => (genKey ns.1, Val.int (ns.2 : Int))) := List.getElem_map _
      have hdkey : d.1 ∈ (specPoissonSizes rng (0 * sources.length) sources).map Prod.fst := by
        rw [specPoissonSizes_fst, hnames]
        exact List.mem_map.mpr ⟨d, hd, rfl⟩
      obtain ⟨n, hn⟩ := mem_map_fst hdkey
      have hkey0 : genKey d.1 ∈ (gef[0] : Row).map Prod.fst := by
        rw [hgef0, hrow0]
        exact List.mem_map.mpr
          ⟨(genKey d.1, Val.int (n : Int)), List.mem_map.mpr ⟨(d.1, n), hn, rfl⟩, rfl⟩
      have hcol : genKey d.1 ∈ frameColumns gef := by
        rw [frameColumns]
        refine List.mem_dedup.mpr ?_
        refine List.mem_flatten.mpr ⟨(gef[0] : Row).map Prod.fst, ?_, hkey0⟩
        exact List.mem_map.mpr ⟨gef[0], List.getElem_mem h0gef, rfl⟩
      refine ⟨Val.null, hgenrow _ ?_⟩
      rw [hpadeq, padRow]
      exact List.mem_map.mpr ⟨genKey d.1, hcol, rfl⟩

/-- C6 counterexample: in the end-to-end scenario (three trials, one
source `A`, one model `M`, one strategy `simple`, run seed 99999, job
identifier `local` because no scheduler id is set), the aggregate table
is three copies of one seven-column row — truth, nominal yield, generated
size, fitted parameter, fit status, model name, strategy name — and
neither the seed value 99999 nor the job identifier `local` occurs in any
cell of any row: the table carries no seed or job-identifier columns. -/
theorem C6_counterexample :
    runCore cfgW toysW transformsW fitOracleW rngW = .ok [rowW, rowW, rowW] ∧
    ((runModel cfgW toysW transformsW fitOracleW rngW getToyPathW none 99999 store0).2).fit_results
      = [rowW, rowW, rowW] ∧
    rowW.length = 7 ∧
    decide (Val.int 99999 ∈ rowValues rowW) = false ∧
    decide (Val.str "local" ∈ rowValues rowW) = false := by
  decide

/-- C6 witness: the aggregate of the concrete scenario has exactly
`3 * (1 * 1)` rows. -/
theorem C6_witness :
    ([rowW, rowW, rowW] : List Row).length
      = cfgW.nfits * (cfgW.models.length * cfgW.strategies.length) :=
  (C6_aggregate_table_shape cfgW toysW transformsW fitOracleW rngW
    [rowW, rowW, rowW] (by decide)).1

end FitToys

